import Mathlib

/-!
Shallow embedding of the Solana credit-scoring analyzer (src/may13ien.py)
and verification of its specified properties.

Upstream HTTP endpoints are modelled as explicit data: the transaction
pagination endpoint is a list of successive page responses, the asset and
staking endpoints are `Except`-valued responses (an `Except.error` models a
request that failed after all retries), and the transaction-detail endpoint
is a function from signatures to parsed records.  Monetary values are exact
rationals (Python floats are abstracted to ℚ); raw lamport balances are
naturals, and native-transfer amounts are integers (the code takes their
absolute value).
-/

namespace CreditScoring

/-- One entry of a transaction's `nativeTransfers` list; `amount` is read
with `x.get("amount", 0)`, so it is optional with default 0. -/
structure NativeTransfer where
  amount : Option Int
deriving DecidableEq, Inhabited

/-- A transaction summary as returned by the history endpoint: the fields
read by `get_transactions` and `main` (`signature`, `nativeTransfers`).
`signature` is optional because the code reads it with `.get`. -/
structure Tx where
  signature : Option String
  nativeTransfers : List NativeTransfer
deriving DecidableEq, Inhabited

/-- The constant `SMALL_TX_THRESHOLD = int(0.1 * 1e9)`; the float product `0.1 * 1e9`
rounds to exactly `100000000.0`, so the threshold is 100000000 lamports. -/
def SMALL_TX_THRESHOLD : Nat := 100000000

/-- Models `sum(abs(x.get("amount", 0)) for x in tx.get("nativeTransfers", []))`. -/
def txLam (tx : Tx) : Nat :=
  (tx.nativeTransfers.map (fun x => (x.amount.getD 0).natAbs)).sum

/-- The test `lam < SMALL_TX_THRESHOLD`: the classification predicate of
`get_transactions`. -/
def isSmall (tx : Tx) : Bool :=
  txLam tx < SMALL_TX_THRESHOLD

/-- The inner `for tx in data:` loop of `get_transactions`: classifies each
transaction of the page, appending normal ones to `normals` and counting
small ones in `small`; `break`s out of the page as soon as
`len(normal_txs) >= limit`. -/
def processPage (limit : Nat) : List Tx → List Tx → Nat → List Tx × Nat
  | [], normals, small => (normals, small)
  | tx :: rest, normals, small =>
    if isSmall tx then
      processPage limit rest normals (small + 1)
    else
      let normals' := normals ++ [tx]
      if limit ≤ normals'.length then (normals', small)
      else processPage limit rest normals' small

/-- The Python truthiness test `not (sig := data[-1].get("signature"))`:
the cursor is falsy when the last transaction of the page has no
`signature` or an empty one. -/
def lastSignature (page : List Tx) : Option String :=
  match page.getLast?.bind Tx.signature with
  | none => none
  | some s => if s = "" then none else some s

/-- The `while True:` pagination loop of `get_transactions`.  `pages` is
the stream of successive responses of the history endpoint (an exhausted
stream models the endpoint returning no data, which hits the
`if not data: break` branch). -/
def get_transactions_loop (limit : Nat) :
    List (List Tx) → List Tx → Nat → List Tx × Nat
  | [], normals, small => (normals, small)
  | page :: rest, normals, small =>
    if page.isEmpty then (normals, small)
    else
      let r := processPage limit page normals small
      if limit ≤ r.1.length then r
      else
        match lastSignature page with
        | none => r
        | some _ => get_transactions_loop limit rest r.1 r.2

/-- Models `get_transactions(address, limit=500)`: walks the transaction history
backward in pages, returning the collected normal transactions and the
count of small ones.  (The elapsed-time printing of the source is I/O only
and is not modelled.) -/
def get_transactions (pages : List (List Tx)) (limit : Nat := 500) :
    List Tx × Nat :=
  get_transactions_loop limit pages [] 0

/-- Specification-side trace: the transactions of one page that the inner
classification loop actually examines before it stops, given that `nlen`
normal transactions were already collected. -/
def observePage (limit nlen : Nat) : List Tx → List Tx
  | [] => []
  | tx :: rest =>
    if isSmall tx then tx :: observePage limit nlen rest
    else if limit ≤ nlen + 1 then [tx]
    else tx :: observePage limit (nlen + 1) rest

/-- Specification-side trace: all transactions examined by the pagination
loop up to the point it stops (at exhaustion, at an empty page, at a
missing cursor, or at the transaction that reaches the target). -/
def observed (limit : Nat) : List (List Tx) → Nat → List Tx
  | [], _ => []
  | page :: rest, nlen =>
    if page.isEmpty then []
    else
      let obs := observePage limit nlen page
      let nlen' := nlen + (obs.filter (fun t => !isSmall t)).length
      if limit ≤ nlen' then obs
      else
        match lastSignature page with
        | none => obs
        | some _ => obs ++ observed limit rest nlen'

/-- Lemma: `processPage` appends exactly the non-small observed transactions and
counts exactly the small observed ones. -/
theorem processPage_eq_observePage (limit : Nat) (page : List Tx)
    (normals : List Tx) (small : Nat) :
    processPage limit page normals small =
      (normals ++ (observePage limit normals.length page).filter
          (fun t => !isSmall t),
        small + ((observePage limit normals.length page).filter
          (fun t => isSmall t)).length) := by
  induction page generalizing normals small with
  | nil => simp [processPage, observePage]
  | cons tx rest ih =>
    by_cases hs : isSmall tx
    · simp only [processPage, observePage, hs, if_pos, List.filter_cons]
      rw [ih]
      simp [hs]
      omega
    · simp only [processPage, observePage, hs, if_neg, Bool.not_eq_true]
      by_cases hl : limit ≤ normals.length + 1
      · simp [hs, hl, List.length_append]
      · simp only [List.length_append, List.length_cons, List.length_nil,
          Nat.zero_add, hl, if_neg, if_false]
        rw [ih]
        simp [hs, List.filter_cons, List.append_assoc]

/-- The pagination loop equals the spec-side trace: its normal list is the
non-small observed transactions and its small count is the number of small
observed ones. -/
theorem get_transactions_loop_eq_observed (limit : Nat)
    (pages : List (List Tx)) (normals : List Tx) (small : Nat) :
    get_transactions_loop limit pages normals small =
      (normals ++ (observed limit pages normals.length).filter
          (fun t => !isSmall t),
        small + ((observed limit pages normals.length).filter
          (fun t => isSmall t)).length) := by
  induction pages generalizing normals small with
  | nil => simp [get_transactions_loop, observed]
  | cons page rest ih =>
    by_cases hp : page.isEmpty
    · simp [get_transactions_loop, observed, hp]
    · simp only [get_transactions_loop, observed, hp, if_neg, if_false,
        Bool.false_eq_true, not_false_iff]
      rw [processPage_eq_observePage]
      simp only [List.length_append]
      by_cases hl : limit ≤ normals.length +
          ((observePage limit normals.length page).filter
            (fun t => !isSmall t)).length
      · simp [hl]
      · simp only [hl, if_neg, if_false]
        cases hsig : lastSignature page with
        | none => simp
        | some s =>
          rw [ih]
          simp [List.filter_append, List.append_assoc, Nat.add_assoc]

/-- A concrete sub-threshold transaction (total native movement 1000). -/
def smallTx : Tx := ⟨some "sigSmall", [⟨some 1000⟩]⟩

/-- A concrete normal transaction (total native movement 200000000). -/
def bigTx : Tx := ⟨some "sigBig", [⟨some 200000000⟩]⟩

/-- C2: on return of `get_transactions` the classification is a partition
of the transactions observed during pagination up to the point it stops:
the normal list consists exactly of the observed transactions whose summed
absolute native-transfer amount is not below the threshold, the small
count counts exactly the observed sub-threshold ones, and the two add up
to the number of observed transactions. -/
theorem C2_partition_observed (pages : List (List Tx)) (limit : Nat) :
    (get_transactions pages limit).1 =
      (observed limit pages 0).filter (fun t => !isSmall t) ∧
    (get_transactions pages limit).2 =
      ((observed limit pages 0).filter (fun t => isSmall t)).length ∧
    (get_transactions pages limit).2 + (get_transactions pages limit).1.length =
      (observed limit pages 0).length := by
  have h := get_transactions_loop_eq_observed limit pages [] 0
  simp only [get_transactions, h, List.nil_append, List.length_nil, Nat.zero_add]
  refine ⟨trivial, trivial, ?_⟩
  conv_rhs => rw [List.length_eq_length_filter_add
    (l := observed limit pages 0) (fun t => isSmall t)]

/-- C1 (counterexample): with target 1 and the single page
`[bigTx, smallTx]`, the paginator returns small count `0`: the
sub-threshold transaction occurring after the target-reaching transaction
in the final page is not counted, contradicting the claim that `smallCount`
still counts every sub-threshold transaction seen in that page. -/
theorem C1_counterexample :
    get_transactions [[bigTx, smallTx]] 1 = ([bigTx], 0) ∧
    isSmall smallTx = true ∧
    (get_transactions [[bigTx, smallTx]] 1).2 ≠ 1 := by
  refine ⟨by decide, by decide, by decide⟩

/-- When the target is reached at transaction `t` partway through a page,
the inner loop `break`s immediately: it returns the normals collected so
far plus `t`, and the small count includes only the sub-threshold
transactions examined before `t`; the rest of the page is not examined. -/
theorem processPage_target (limit : Nat) (normals0 : List Tx) (small0 : Nat)
    (pre post : List Tx) (t : Tx)
    (ht : isSmall t = false)
    (hfill : normals0.length + (pre.filter (fun x => !isSmall x)).length + 1
      = limit) :
    processPage limit (pre ++ t :: post) normals0 small0 =
      (normals0 ++ pre.filter (fun x => !isSmall x) ++ [t],
        small0 + (pre.filter (fun x => isSmall x)).length) := by
  induction pre generalizing normals0 small0 with
  | nil =>
    have hl : limit ≤ (normals0 ++ [t]).length := by
      simp only [List.filter_nil, List.length_nil, Nat.add_zero] at hfill
      simp only [List.length_append, List.length_cons, List.length_nil]
      omega
    simp only [List.filter_nil, List.length_nil, Nat.add_zero] at hfill
    simp [processPage, ht, hl]
    intro hcon
    exfalso
    omega
  | cons x pre' ih =>
    rw [List.cons_append]
    by_cases hx : isSmall x
    · have hfill' : normals0.length +
          (pre'.filter (fun y => !isSmall y)).length + 1 = limit := by
        simp only [List.filter_cons, hx, Bool.not_true, Bool.false_eq_true,
          if_false] at hfill
        exact hfill
      simp only [processPage, hx, if_true]
      rw [ih normals0 (small0 + 1) hfill']
      simp only [List.filter_cons, hx, Bool.not_true, Bool.false_eq_true,
        if_false, if_true, List.length_cons, Prod.mk.injEq]
      exact ⟨trivial, by omega⟩
    · have hxb : isSmall x = false := Bool.eq_false_iff.mpr hx
      have hfill' : (normals0 ++ [x]).length +
          (pre'.filter (fun y => !isSmall y)).length + 1 = limit := by
        simp only [List.filter_cons, hxb, Bool.not_false, if_true,
          List.length_cons] at hfill
        simp only [List.length_append, List.length_cons, List.length_nil]
        omega
      have hlt : ¬ limit ≤ (normals0 ++ [x]).length := by
        simp only [List.length_append, List.length_cons,
          List.length_nil] at hfill' ⊢
        omega
      simp only [processPage, hxb, Bool.false_eq_true, if_false]
      rw [if_neg hlt, ih (normals0 ++ [x]) small0 hfill']
      simp only [List.filter_cons, hxb, Bool.not_false, if_true,
        Bool.false_eq_true, if_false, Prod.mk.injEq, List.append_assoc,
        List.cons_append, List.nil_append]

/-- C1 (amended): when the target count is reached partway through a page,
the pagination loop stops at the target-reaching transaction `t`: it
returns exactly `limit` normal transactions (only as many from the final
page as needed), and its small count adds only the sub-threshold
transactions of that page examined before `t` — sub-threshold transactions
occurring after `t` in the page (`post`) and any later pages (`rest`) are
not examined and not counted. -/
theorem C1_pagination_early_stop (limit : Nat) (normals0 : List Tx)
    (small0 : Nat) (pre post : List Tx) (t : Tx) (rest : List (List Tx))
    (ht : isSmall t = false)
    (hfill : normals0.length + (pre.filter (fun x => !isSmall x)).length + 1
      = limit) :
    get_transactions_loop limit ((pre ++ t :: post) :: rest) normals0 small0 =
      (normals0 ++ pre.filter (fun x => !isSmall x) ++ [t],
        small0 + (pre.filter (fun x => isSmall x)).length) ∧
    (get_transactions_loop limit ((pre ++ t :: post) :: rest)
        normals0 small0).1.length = limit := by
  have hne : (pre ++ t :: post).isEmpty = false := by
    cases pre <;> simp [List.isEmpty]
  have hproc := processPage_target limit normals0 small0 pre post t ht hfill
  have hlen : (normals0 ++ pre.filter (fun x => !isSmall x) ++ [t]).length
      = limit := by
    simp only [List.length_append, List.length_cons, List.length_nil]
    omega
  have hstop : get_transactions_loop limit ((pre ++ t :: post) :: rest)
      normals0 small0 =
      (normals0 ++ pre.filter (fun x => !isSmall x) ++ [t],
        small0 + (pre.filter (fun x => isSmall x)).length) := by
    simp only [get_transactions_loop, hne, Bool.false_eq_true, if_false,
      hproc, hlen, le_refl, if_true]
  exact ⟨hstop, by rw [hstop, hlen]⟩

/-- C1 (witness): with target 1 and a single page containing a small
transaction, then the target-reaching normal transaction, then another
small transaction, the paginator returns exactly the normal transaction
and a small count of 1 (the trailing small transaction is not counted). -/
theorem C1_pagination_early_stop_witness :
    isSmall bigTx = false ∧
    get_transactions_loop 1 [[smallTx, bigTx, smallTx]] [] 0 =
      ([bigTx], 1) := by
  have h := C1_pagination_early_stop 1 [] 0 [smallTx] [smallTx] bigTx []
    (by decide) (by decide)
  exact ⟨by decide, by simpa using h.1⟩

/-- The retry loop of `fetch_json` over the list of planned attempt
outcomes (one entry per iteration of `for attempt in range(retries)`).
Result: `none` models Python falling off the loop and returning `None`
(possible only with `retries = 0`); `some (Except.ok v)` is a successful
return; `some (Except.error m)` is the `raise Exception(...)` on the final
attempt.  The second component counts the attempts actually made and the
third lists the sleep durations, one second between consecutive
attempts. -/
def fetch_json_loop {α : Type} :
    List (Except String α) → Option (Except String α) × Nat × List Nat
  | [] => (none, 0, [])
  | Except.ok v :: _ => (some (Except.ok v), 1, [])
  | Except.error e :: rest =>
    match rest with
    | [] => (some (Except.error ("Request failed: " ++ e)), 1, [])
    | _ :: _ =>
      let r := fetch_json_loop rest
      (r.1, r.2.1 + 1, 1 :: r.2.2)

/-- Models `fetch_json(url, method, json, retries=3, timeout=30)`: the network is
modelled by `oracle`, giving the outcome of each attempt (`attempt ==
retries - 1` is the last entry of `List.range retries`). -/
def fetch_json {α : Type} (oracle : Nat → Except String α)
    (retries : Nat := 3) : Option (Except String α) × Nat × List Nat :=
  fetch_json_loop ((List.range retries).map oracle)

/-- Helper: with every attempt failing, the retry loop makes one attempt
per planned entry, raises a message wrapping the last attempt's error, and
sleeps one second between consecutive attempts. -/
theorem fetch_json_loop_errors {α : Type} (errs : Nat → String) (n : Nat) :
    fetch_json_loop (α := α)
        ((List.range (n + 1)).map (fun i => Except.error (errs i))) =
      (some (Except.error ("Request failed: " ++ errs n)), n + 1,
        List.replicate n 1) := by
  induction n generalizing errs with
  | zero =>
    simp [List.range_succ_eq_map, fetch_json_loop]
  | succ m ih =>
    rw [List.range_succ_eq_map, List.map_cons, List.map_map]
    have hmap : (fun i => (Except.error (errs i) : Except String α)) ∘
        Nat.succ = fun i => Except.error (errs (i + 1)) := by
      funext i
      simp [Function.comp]
    rw [hmap]
    obtain ⟨y, ys, hys⟩ : ∃ y ys, (List.range (m + 1)).map
        (fun i => (Except.error (errs (i + 1)) : Except String α)) =
          y :: ys := by
      cases hc : (List.range (m + 1)).map
          (fun i => (Except.error (errs (i + 1)) : Except String α)) with
      | nil => simp at hc
      | cons a as => exact ⟨a, as, rfl⟩
    have step : fetch_json_loop (α := α)
        (Except.error (errs 0) :: y :: ys) =
        ((fetch_json_loop (y :: ys)).1, (fetch_json_loop (y :: ys)).2.1 + 1,
          1 :: (fetch_json_loop (y :: ys)).2.2) := rfl
    rw [hys, step, ← hys, ih (fun i => errs (i + 1))]
    simp [List.replicate_succ]

/-- C4: if the underlying HTTP call fails on every attempt, `fetch_json`
makes exactly `retries` attempts, raises an error whose message wraps the
failure of the last attempt (`attempt == retries - 1`), and waits a fixed
one-second delay between consecutive attempts (`retries - 1` sleeps of one
second each). -/
theorem C4_retry_exhaustion {α : Type} (errs : Nat → String) (retries : Nat)
    (h : 1 ≤ retries) :
    fetch_json (α := α) (fun i => Except.error (errs i)) retries =
      (some (Except.error ("Request failed: " ++ errs (retries - 1))),
        retries, List.replicate (retries - 1) 1) := by
  obtain ⟨n, rfl⟩ : ∃ n, retries = n + 1 := ⟨retries - 1, by omega⟩
  rw [fetch_json, fetch_json_loop_errors errs n]
  simp

/-- C4 (witness): three attempts that all fail with "boom" yield exactly
three attempts, the wrapped last failure, and two one-second sleeps. -/
theorem C4_retry_exhaustion_witness :
    (1 ≤ 3) ∧
    fetch_json (α := Unit) (fun _ => Except.error "boom") 3 =
      (some (Except.error "Request failed: boom"), 3, [1, 1]) := by
  have h := C4_retry_exhaustion (α := Unit) (fun _ => "boom") 3 (by decide)
  exact ⟨by decide, by simpa using h⟩

/-- One element of the `getProgramAccounts` result:
`account.get("account", {}).get("lamports", 0)` is an optional natural
with default 0. -/
structure StakeAccountJson where
  lamports : Option Nat
deriving DecidableEq, Inhabited

/-- Models `get_stake_accounts(address)`: sums the matched accounts' raw lamport
balances and divides by `1e9`; any failure of the underlying request
(after its retries) is caught and replaced by `0.0` (the warning print is
I/O only and is not modelled). -/
def get_stake_accounts (resp : Except String (List StakeAccountJson)) : ℚ :=
  match resp with
  | Except.error _ => 0
  | Except.ok accounts =>
    ((accounts.map (fun a => a.lamports.getD 0)).sum : ℚ) / 1000000000

/-- C5: `get_stake_accounts` never propagates an error: on any underlying
failure it returns `0.0`, on success it returns the sum of the matched
accounts' raw lamport balances divided by `1e9`, and its result is always
a non-negative decimal. -/
theorem C5_staking_never_fails (e : String)
    (accounts : List StakeAccountJson) :
    get_stake_accounts (Except.error e) = 0 ∧
    get_stake_accounts (Except.ok accounts) =
      ((accounts.map (fun a => a.lamports.getD 0)).sum : ℚ) / 1000000000 ∧
    (∀ resp : Except String (List StakeAccountJson),
      0 ≤ get_stake_accounts resp) := by
  refine ⟨rfl, rfl, fun resp => ?_⟩
  cases resp with
  | error _ => simp [get_stake_accounts]
  | ok accounts' =>
    simp only [get_stake_accounts]
    apply div_nonneg
    · apply List.sum_nonneg
      intro x hx
      simp only [List.mem_map] at hx
      obtain ⟨a, _, rfl⟩ := hx
      exact_mod_cast Nat.zero_le _
    · norm_num

/-- The `token_info` object of an asset, with the fields the code reads
via `.get` and their defaults. -/
structure TokenInfo where
  symbol : Option String
  decimals : Option Nat
  balance : Option Nat
deriving DecidableEq, Inhabited

/-- One element of `result["items"]`; `asset.get("token_info", {})` makes
the object optional. -/
structure AssetItem where
  token_info : Option TokenInfo
deriving DecidableEq, Inhabited

/-- An asset profile `{"symbol": ..., "balance": ..., "txVolume": ...}`. -/
structure AssetProfile where
  symbol : String
  balance : ℚ
  txVolume : String
deriving DecidableEq, Inhabited

/-- The body of the `for asset in result.get("items", [])` loop of
`fetch_token_profiles_das`: skip assets whose symbol is absent ("Unknown")
and assets whose normalized balance (raw balance divided by
`10**decimals`) is zero; otherwise build a profile with empty
`txVolume`. -/
def profileOfAsset (asset : AssetItem) : Option AssetProfile :=
  let ti := asset.token_info.getD ⟨none, none, none⟩
  let symbol := ti.symbol.getD "Unknown"
  if symbol = "Unknown" then none
  else
    let decimals := ti.decimals.getD 0
    let balance : ℚ := (ti.balance.getD 0 : ℚ) / 10 ^ decimals
    if balance = 0 then none
    else some ⟨symbol, balance, ""⟩

/-- Models `fetch_token_profiles_das(address)`: token profiles from the upstream
items, then a synthetic `"SOL"` entry when the native lamports are
non-zero (`if lamports:`), then a synthetic `"stakedSOL"` entry when the
staking balance is strictly positive.  `items` and `nativeLamports` are
the relevant parts of the `getAssetsByOwner` result and `stakeResp` is the
response consumed by `get_stake_accounts`. -/
def fetch_token_profiles_das (items : List AssetItem) (nativeLamports : Nat)
    (stakeResp : Except String (List StakeAccountJson)) :
    List AssetProfile :=
  let token_profiles := items.filterMap profileOfAsset
  let token_profiles := if nativeLamports ≠ 0 then
      token_profiles ++ [⟨"SOL", (nativeLamports : ℚ) / 1000000000, ""⟩]
    else token_profiles
  let staked := get_stake_accounts stakeResp
  if 0 < staked then token_profiles ++ [⟨"stakedSOL", staked, ""⟩]
  else token_profiles


/-- A concrete fungible asset with symbol "ABC", 0 decimals, raw balance 1. -/
def dupAsset : AssetItem := ⟨some ⟨some "ABC", some 0, some 1⟩⟩

/-- A concrete fungible asset with symbol "ABC", 2 decimals, raw balance
12345 (normalized balance 123.45). -/
def abcAsset : AssetItem := ⟨some ⟨some "ABC", some 2, some 12345⟩⟩

/-- The profile list, written as token profiles in upstream order, then an
optional synthetic `"SOL"` entry, then an optional synthetic `"stakedSOL"`
entry. -/
theorem fetch_token_profiles_das_eq (items : List AssetItem)
    (nativeLamports : Nat)
    (stakeResp : Except String (List StakeAccountJson)) :
    fetch_token_profiles_das items nativeLamports stakeResp =
      items.filterMap profileOfAsset ++
        (if nativeLamports ≠ 0 then
          [⟨"SOL", (nativeLamports : ℚ) / 1000000000, ""⟩] else []) ++
        (if 0 < get_stake_accounts stakeResp then
          [⟨"stakedSOL", get_stake_accounts stakeResp, ""⟩] else []) := by
  simp only [fetch_token_profiles_das]
  split_ifs
  all_goals simp

/-- C3 (counterexample): an upstream asset response listing the same
symbol twice (each with non-zero balance) yields two profiles with the
same symbol, contradicting the claim that no two entries of the returned
profile list share a symbol. -/
theorem C3_counterexample :
    fetch_token_profiles_das [dupAsset, dupAsset] 0 (Except.ok []) =
      [⟨"ABC", 1, ""⟩, ⟨"ABC", 1, ""⟩] ∧
    ¬ ((fetch_token_profiles_das [dupAsset, dupAsset] 0
        (Except.ok [])).map AssetProfile.symbol).Nodup := by
  have heval : fetch_token_profiles_das [dupAsset, dupAsset] 0
      (Except.ok []) = [⟨"ABC", 1, ""⟩, ⟨"ABC", 1, ""⟩] := by
    simp only [fetch_token_profiles_das, get_stake_accounts, dupAsset,
      profileOfAsset, List.filterMap_cons, List.filterMap_nil,
      Option.getD_some, List.map_nil, List.sum_nil]
    norm_num
    rw [if_neg (by decide : ¬ ("ABC" = "Unknown"))]
  refine ⟨heval, ?_⟩
  rw [heval]
  simp

/-- No profile produced from an upstream item has a zero balance: the
`if balance == 0: continue` guard filters them out. -/
theorem profileOfAsset_balance_ne_zero (a : AssetItem) (p : AssetProfile)
    (h : profileOfAsset a = some p) : p.balance ≠ 0 := by
  simp only [profileOfAsset] at h
  split_ifs at h with h1 h2
  all_goals
    first
      | exact Option.noConfusion h
      | (cases h; exact h2)

/-- C3 (amended): for every upstream response, no entry of the returned
profile list has balance `0` (zero-balance assets are omitted entirely,
unconditionally); and — provided the token profiles built from the
upstream items have pairwise distinct symbols, none equal to `"SOL"` or
`"stakedSOL"` — no two entries share a symbol.  (The unconditional
uniqueness of the original claim fails when the upstream repeats a
symbol; the builder performs no deduplication.) -/
theorem C3_profiles_nonzero_unique (items : List AssetItem)
    (nativeLamports : Nat)
    (stakeResp : Except String (List StakeAccountJson)) :
    (∀ p ∈ fetch_token_profiles_das items nativeLamports stakeResp,
      p.balance ≠ 0) ∧
    (((items.filterMap profileOfAsset).map AssetProfile.symbol).Nodup →
      "SOL" ∉ (items.filterMap profileOfAsset).map AssetProfile.symbol →
      "stakedSOL" ∉ (items.filterMap profileOfAsset).map
        AssetProfile.symbol →
      ((fetch_token_profiles_das items nativeLamports stakeResp).map
        AssetProfile.symbol).Nodup) := by
  rw [fetch_token_profiles_das_eq]
  constructor
  · intro p hp
    rw [List.mem_append, List.mem_append] at hp
    rcases hp with (hp | hp) | hp
    · rw [List.mem_filterMap] at hp
      obtain ⟨a, -, ha⟩ := hp
      exact profileOfAsset_balance_ne_zero a p ha
    · split_ifs at hp with hnat
      · rw [List.mem_singleton] at hp
        subst hp
        exact div_ne_zero (Nat.cast_ne_zero.mpr hnat) (by norm_num)
      · exact absurd hp (List.not_mem_nil p)
    · split_ifs at hp with hstake
      · rw [List.mem_singleton] at hp
        subst hp
        exact ne_of_gt hstake
      · exact absurd hp (List.not_mem_nil p)
  · intro hnodup hsol hstk
    rw [List.map_append, List.map_append, List.nodup_append,
      List.nodup_append]
    refine ⟨⟨hnodup, ?_, ?_⟩, ?_, ?_⟩
    · split_ifs <;> simp
    · split_ifs with hnat
      · simp only [List.map_cons, List.map_nil, List.disjoint_singleton]
        exact hsol
      · simp
    · split_ifs <;> simp
    · split_ifs with h1 h2
      · simp only [List.map_cons, List.map_nil, List.disjoint_singleton,
          List.mem_append, List.mem_singleton]
        push_neg
        exact ⟨hstk, by decide⟩
      · simp
      · simp only [List.map_cons, List.map_nil, List.disjoint_singleton,
          List.mem_append, List.append_nil]
        simpa using hstk
      · simp

/-- C3 (witness): a concrete run with one token asset, a positive native
balance and a positive staking balance produces a profile list with
pairwise distinct symbols. -/
theorem C3_profiles_nonzero_unique_witness :
    ((fetch_token_profiles_das [abcAsset] 2500000000
      (Except.ok [⟨some 3000000000⟩])).map AssetProfile.symbol).Nodup := by
  have hfm : [abcAsset].filterMap profileOfAsset =
      [⟨"ABC", 12345 / 100, ""⟩] := by
    simp only [profileOfAsset, abcAsset, List.filterMap_cons,
      List.filterMap_nil, Option.getD_some]
    norm_num
    rw [if_neg (by decide : ¬ ("ABC" = "Unknown"))]
  exact (C3_profiles_nonzero_unique [abcAsset] 2500000000
    (Except.ok [⟨some 3000000000⟩])).2
    (by rw [hfm]; simp) (by rw [hfm]; decide) (by rw [hfm]; decide)

/-- C8: the profile list is the token assets in upstream-provided order,
followed by a synthetic `"SOL"` entry exactly when the native balance is
positive (non-zero), followed by a synthetic `"stakedSOL"` entry exactly
when the staking balance is strictly positive; and the concrete scenario:
an address with one native-balance entry of 2500000000 raw units and no
tokens or staking yields exactly `[{symbol: "SOL", balance: 2.5}]`. -/
theorem C8_profile_ordering (items : List AssetItem) (nativeLamports : Nat)
    (stakeResp : Except String (List StakeAccountJson)) :
    fetch_token_profiles_das items nativeLamports stakeResp =
      items.filterMap profileOfAsset ++
        (if nativeLamports ≠ 0 then
          [⟨"SOL", (nativeLamports : ℚ) / 1000000000, ""⟩] else []) ++
        (if 0 < get_stake_accounts stakeResp then
          [⟨"stakedSOL", get_stake_accounts stakeResp, ""⟩] else []) ∧
    fetch_token_profiles_das [] 2500000000 (Except.ok []) =
      [⟨"SOL", 5 / 2, ""⟩] := by
  refine ⟨fetch_token_profiles_das_eq items nativeLamports stakeResp, ?_⟩
  rw [fetch_token_profiles_das_eq]
  simp only [List.filterMap_nil, get_stake_accounts, List.map_nil,
    List.sum_nil, List.nil_append]
  norm_num

/-- A parsed transaction record as returned by the transaction-detail
endpoint: the two fields the statistics code reads, both via `.get` with a
default. -/
structure ParsedTx where
  type : Option String
  tokenSymbol : Option String
deriving DecidableEq, Inhabited

/-- Models `tx.get("type", "UNKNOWN")`. -/
def typeOf (tx : ParsedTx) : String := tx.type.getD "UNKNOWN"

/-- Models `Counter(tx.get("type", "UNKNOWN") for tx in parsed)` viewed as the
function from a type to its multiplicity. -/
def typeDistribution (parsed : List ParsedTx) : String → Nat :=
  fun t => (parsed.map typeOf).count t

/-- The distinct keys of the counter (the support over which
`Counter.values()` sums). -/
def typeKeys (parsed : List ParsedTx) : List String :=
  (parsed.map typeOf).dedup

/-- Two-digit zero-padded decimal rendering of a natural below 100. -/
def twoDigits (n : Nat) : String :=
  (if n < 10 then "0" else "") ++ toString n

/-- Models the Python formatting `f"{q:.2%}"` for a non-negative rational
`q`: scale by 100, keep two decimal places (rounding half up on the exact
rational, an abstraction of CPython's binary-float rounding), suffix with
`%`. -/
def fmtPercent (q : ℚ) : String :=
  let h : Nat := (⌊q * 10000 + 1 / 2⌋).toNat
  toString (h / 100) ++ "." ++ twoDigits (h % 100) ++ "%"

/-- The body of the `for profile in token_profiles:` loop of `main`: count
the parsed records whose `tokenSymbol` (default `""`) equals the profile's
symbol and store the ratio string, with the literal `"0.00%"` when no
record was parsed (`if total else "0.00%"`). -/
def setTxVolume (parsed : List ParsedTx) (profile : AssetProfile) :
    AssetProfile :=
  let total := parsed.length
  let n := (parsed.filter
    (fun tx => tx.tokenSymbol.getD "" == profile.symbol)).length
  { profile with
    txVolume := if total ≠ 0 then fmtPercent ((n : ℚ) / total)
      else "0.00%" }

/-- The statistics-aggregation loop of `main`, annotating every profile in
order. -/
def aggregateProfiles (parsed : List ParsedTx)
    (profiles : List AssetProfile) : List AssetProfile :=
  profiles.map (setTxVolume parsed)

/-- C6: with no parsed records every profile's ratio is the literal string
"0.00%" (no division is attempted); with `n` parsed records the ratio of a
profile is the count of records whose `tokenSymbol` equals the profile's
symbol, divided by the total, formatted as a percentage with two decimal
places.  Every profile is annotated this way, in order. -/
theorem C6_ratio_formatting (parsed : List ParsedTx)
    (profiles : List AssetProfile) (p : AssetProfile) :
    aggregateProfiles parsed profiles = profiles.map (setTxVolume parsed) ∧
    (parsed.length = 0 → (setTxVolume parsed p).txVolume = "0.00%") ∧
    (parsed.length ≠ 0 → (setTxVolume parsed p).txVolume =
      fmtPercent (((parsed.filter (fun tx =>
        tx.tokenSymbol.getD "" == p.symbol)).length : ℚ) / parsed.length)) := by
  refine ⟨rfl, ?_, ?_⟩
  · intro h
    simp [setTxVolume, h]
  · intro h
    simp [setTxVolume, h]

/-- A concrete parsed record of type "SWAP" touching the symbol "SOL". -/
def swapTx : ParsedTx := ⟨some "SWAP", some "SOL"⟩

/-- C6 (witness): with no parsed records the annotated ratio is "0.00%";
with one parsed record matching the profile's symbol it is the formatted
ratio 1/1. -/
theorem C6_ratio_formatting_witness :
    (setTxVolume ([] : List ParsedTx) ⟨"SOL", 1, ""⟩).txVolume = "0.00%" ∧
    (setTxVolume [swapTx] ⟨"SOL", 1, ""⟩).txVolume =
      fmtPercent (((([swapTx] : List ParsedTx).filter (fun tx =>
        tx.tokenSymbol.getD "" == "SOL")).length : ℚ) /
        ([swapTx] : List ParsedTx).length) := by
  constructor
  · exact (C6_ratio_formatting [] [] ⟨"SOL", 1, ""⟩).2.1 rfl
  · exact (C6_ratio_formatting [swapTx] [] ⟨"SOL", 1, ""⟩).2.2 (by decide)

/-- C7: the type distribution maps each type `t` to the number of parsed
records whose type (with default bucket "UNKNOWN" for a missing type)
equals `t`, and the sum of the counts over the distinct keys equals the
number of parsed records. -/
theorem C7_type_distribution (parsed : List ParsedTx) (t : String) :
    typeDistribution parsed t =
      (parsed.filter (fun tx => typeOf tx == t)).length ∧
    ((typeKeys parsed).map (typeDistribution parsed)).sum =
      parsed.length := by
  constructor
  · induction parsed with
    | nil => simp [typeDistribution]
    | cons tx rest ih =>
      simp only [typeDistribution, List.map_cons, List.count_cons,
        List.filter_cons] at ih ⊢
      by_cases h : typeOf tx == t
      · simp [h, ih]
      · simp [h, ih]
  · have h := List.sum_map_count_dedup_eq_length (parsed.map typeOf)
    simp only [typeKeys]
    have hfun : typeDistribution parsed =
        fun x => (parsed.map typeOf).count x := rfl
    rw [hfun, h, List.length_map]

/-- The comprehension `[tx["signature"] for tx in txs]`: the subscript
raises `KeyError` when a transaction lacks a signature (modelled as an
error); otherwise the list of all signatures. -/
def extractSignatures : List Tx → Except String (List String)
  | [] => Except.ok []
  | tx :: rest =>
    match tx.signature with
    | none => Except.error "KeyError: signature"
    | some s =>
      match extractSignatures rest with
      | Except.error e => Except.error e
      | Except.ok l => Except.ok (s :: l)

/-- Models `sigs = [tx["signature"] for tx in txs][:100]`: the full signature
list truncated to its first 100 entries. -/
def sigsOf (txs : List Tx) : Except String (List String) :=
  match extractSignatures txs with
  | Except.error e => Except.error e
  | Except.ok l => Except.ok (l.take 100)

/-- The batched detail-resolution loop of `main`
(`for i in range(0, len(sigs), 20)`), with the detail endpoint modelled as
returning one parsed record per signature.  The inter-batch sleep and the
progress printing are I/O only and are not modelled. -/
def batchLoop (detail : String → ParsedTx) : List String → List ParsedTx
  | [] => []
  | s :: rest =>
    ((s :: rest).take 20).map detail ++ batchLoop detail ((s :: rest).drop 20)
termination_by l => l.length
decreasing_by
  simp only [List.length_drop, List.length_cons]
  omega

/-- Batch-by-batch resolution concatenates to a plain map over all
signatures. -/
theorem batchLoop_eq_map (detail : String → ParsedTx)
    (sigs : List String) : batchLoop detail sigs = sigs.map detail := by
  have H : ∀ n (l : List String), l.length ≤ n →
      batchLoop detail l = l.map detail := by
    intro n
    induction n with
    | zero =>
      intro l h
      have hl : l = [] := List.eq_nil_of_length_eq_zero (Nat.le_zero.mp h)
      subst hl
      simp [batchLoop]
    | succ m ih =>
      intro l h
      cases l with
      | nil => simp [batchLoop]
      | cons s rest =>
        rw [batchLoop]
        rw [ih ((s :: rest).drop 20) (by
          simp only [List.length_drop, List.length_cons]
          simp only [List.length_cons] at h
          omega)]
        rw [← List.map_append, List.take_append_drop]
  exact H sigs.length sigs le_rfl

/-- An `Except.ok` result of `sigsOf` holds at most 100 signatures
(`[:100]`). -/
theorem sigsOf_ok_length (txs : List Tx) (sigs : List String)
    (h : sigsOf txs = Except.ok sigs) : sigs.length ≤ 100 := by
  simp only [sigsOf] at h
  cases hm : extractSignatures txs with
  | error e =>
    rw [hm] at h
    exact Except.noConfusion h
  | ok full =>
    rw [hm] at h
    cases h
    simp [List.length_take]

/-- The statistics object built for one address. -/
structure Report where
  totalParsed : Nat
  smallTxCount : Nat
  profiles : List AssetProfile
deriving DecidableEq, Inhabited

/-- The upstream world for one address's analysis: the outcome of
transaction pagination, of the asset fetch (items and native lamports), of
the staking fetch, and the detail endpoint.  An `Except.error` models the
corresponding fetches failing after the retry limit, i.e. the exception
`fetch_json` raises. -/
structure Upstream where
  txPages : Except String (List (List Tx))
  assets : Except String (List AssetItem × Nat)
  stake : Except String (List StakeAccountJson)
  detail : String → ParsedTx

/-- The statistics portion of one iteration of `main`'s `while True:`
loop for a single address: pagination, asset building, signature
truncation, batched detail resolution, then aggregation.  The source
wraps none of these steps in an exception handler, so any failure
propagates (the `try/except` in `main` only surrounds the narrative
generation, which is outside the modelled core). -/
def analyze (u : Upstream) : Except String Report := do
  let pages ← u.txPages
  let r := get_transactions pages 500
  let a ← u.assets
  let profiles0 := fetch_token_profiles_das a.1 a.2 u.stake
  let sigs ← sigsOf r.1
  let parsed := batchLoop u.detail sigs
  let profiles := aggregateProfiles parsed profiles0
  pure ⟨parsed.length, r.2, profiles⟩

/-- Models `main`'s loop over the requested addresses (each given by its
upstream world).  The source has no per-address exception handler around
the statistics pipeline, so the first failing analysis aborts the whole
loop. -/
def runMain : List Upstream → Except String (List Report)
  | [] => Except.ok []
  | u :: rest => do
    let r ← analyze u
    let rs ← runMain rest
    pure (r :: rs)

/-- An upstream world with no transactions, no assets, no native balance
and a failed staking fetch: its analysis succeeds with an empty report. -/
def okUpstream : Upstream :=
  ⟨Except.ok [], Except.ok ([], 0), Except.error "no stake",
    fun _ => ⟨none, none⟩⟩

/-- An upstream world whose transaction pagination fails after retries. -/
def failUpstream : Upstream :=
  ⟨Except.error "Request failed: boom", Except.ok ([], 0),
    Except.error "no stake", fun _ => ⟨none, none⟩⟩

/-- Lemma: `okUpstream`'s analysis succeeds and yields the empty report. -/
theorem analyze_okUpstream_eval :
    analyze okUpstream = Except.ok ⟨0, 0, []⟩ := by
  have hprof : fetch_token_profiles_das [] 0 (Except.error "no stake")
      = [] := by
    rw [fetch_token_profiles_das_eq]
    norm_num [get_stake_accounts]
  simp [analyze, okUpstream, bind, Except.bind, get_transactions,
    get_transactions_loop, sigsOf, extractSignatures, hprof,
    batchLoop_eq_map, aggregateProfiles, pure, Except.pure]

/-- C9 (counterexample): with a first address whose pagination fails after
retries and a second address that on its own analyzes fine, the address
loop returns the error — the process terminates instead of continuing to
the next requested address, contradicting the claim. -/
theorem C9_counterexample :
    runMain [failUpstream, okUpstream] =
      Except.error "Request failed: boom" ∧
    runMain [okUpstream] = Except.ok [⟨0, 0, []⟩] := by
  constructor
  · rfl
  · simp [runMain, analyze_okUpstream_eval, bind, Except.bind, pure,
      Except.pure]

/-- C9 (amended): a pagination failure or an asset-fetch failure aborts
the current address's analysis (no report, hence no partial statistics,
is produced), and the failure propagates out of the address loop: the
process terminates with that error rather than continuing to the next
requested address. -/
theorem C9_failure_propagates (u : Upstream) (rest : List Upstream)
    (e : String) :
    (u.txPages = Except.error e → analyze u = Except.error e) ∧
    (∀ pages, u.txPages = Except.ok pages →
      u.assets = Except.error e → analyze u = Except.error e) ∧
    (analyze u = Except.error e →
      runMain (u :: rest) = Except.error e) := by
  refine ⟨?_, ?_, ?_⟩
  · intro h
    simp [analyze, h, bind, Except.bind]
  · intro pages hp ha
    simp [analyze, hp, ha, bind, Except.bind]
  · intro h
    simp [runMain, h, bind, Except.bind]

/-- C9 (witness): the failed pagination of `failUpstream` aborts its
analysis and terminates a run consisting of that single address. -/
theorem C9_failure_propagates_witness :
    analyze failUpstream = Except.error "Request failed: boom" ∧
    runMain [failUpstream] = Except.error "Request failed: boom" := by
  have h := C9_failure_propagates failUpstream [] "Request failed: boom"
  have h1 := h.1 rfl
  exact ⟨h1, h.2.2 h1⟩

/-- C10: the analysis resolves details for at most the first 100
signatures of the normal-transaction list (`sigs = [...][:100]`), so a
successful report's `totalParsed` never exceeds 100 even though the
paginator collects up to 500 normal transactions; consequently the type
distribution and the `txVolume` ratios are computed over at most those
100 newest records. -/
theorem C10_detail_truncation (u : Upstream) (r : Report)
    (txs : List Tx) (sigs : List String)
    (h : analyze u = Except.ok r) (hs : sigsOf txs = Except.ok sigs) :
    r.totalParsed ≤ 100 ∧ sigs.length ≤ 100 := by
  refine ⟨?_, sigsOf_ok_length txs sigs hs⟩
  cases hpages : u.txPages with
  | error e => simp [analyze, hpages, bind, Except.bind] at h
  | ok pages =>
    cases hassets : u.assets with
    | error e => simp [analyze, hpages, hassets, bind, Except.bind] at h
    | ok a =>
      cases hsigs : sigsOf (get_transactions pages 500).1 with
      | error e =>
        simp [analyze, hpages, hassets, hsigs, bind, Except.bind] at h
      | ok sigs' =>
        simp only [analyze, hpages, hassets, hsigs, bind, Except.bind,
          pure, Except.pure, Except.ok.injEq] at h
        subst h
        simp only [batchLoop_eq_map, List.length_map]
        exact sigsOf_ok_length _ _ hsigs

/-- C10 (witness): a concrete successful analysis has `totalParsed ≤ 100`
and a concrete signature extraction stays within 100 entries. -/
theorem C10_detail_truncation_witness :
    (⟨0, 0, []⟩ : Report).totalParsed ≤ 100 ∧
    (["sigBig"] : List String).length ≤ 100 := by
  have h2 : sigsOf [bigTx] = Except.ok ["sigBig"] := rfl
  exact C10_detail_truncation okUpstream ⟨0, 0, []⟩ [bigTx] ["sigBig"]
    analyze_okUpstream_eval h2
